import Mathlib

/-
Shallow embedding of the bevy_queue_delete crate (src/lib.rs, src/recursive.rs,
src/src/ref_delete.rs), built against bevy 0.7.

Conventions of the embedding:
 * `Entity` is an opaque registry id, modelled as `Nat`.
 * Machine integers (`u64` for `FrameCountDelete`, `usize` for the reference
   counts) are modelled as `Nat` with explicit wraparound `% U64`, matching
   release-mode Rust semantics (debug builds panic at exactly the inputs where
   the wraparound below fires).
 * `bevy::utils::HashMap<Entity, usize>` is modelled as an association list;
   only lookup/insert/remove are used by the code.
 * The crossbeam channel is modelled as the list of queued messages (FIFO,
   oldest first) plus a `connected` flag; `try_recv` yields queued messages
   first and reports `Disconnected` only on an empty, disconnected channel.
 * A Rust panic is modelled as `Except.error` carrying the panic message.
-/

abbrev Entity := Nat

/-- Width of `u64`, and of `usize` on the 64-bit targets bevy supports: 2^64. -/
def U64 : Nat := 18446744073709551616

-- ---------------------------------------------------------------------------
-- Association-list model of bevy::utils::HashMap<Entity, usize>
-- ---------------------------------------------------------------------------

/-- `HashMap::get`. -/
def mapLookup : List (Entity × Nat) → Entity → Option Nat
  | [], _ => none
  | (k, v) :: rest, e => if k = e then some v else mapLookup rest e

/-- Write through `HashMap::entry`: update the value in place if the key is
present, append the binding otherwise. -/
def mapInsert : List (Entity × Nat) → Entity → Nat → List (Entity × Nat)
  | [], e, v => [(e, v)]
  | (k, w) :: rest, e, v =>
      if k = e then (k, v) :: rest else (k, w) :: mapInsert rest e v

/-- `HashMap::remove` (the removed value is unused by the code). -/
def mapErase : List (Entity × Nat) → Entity → List (Entity × Nat)
  | [], _ => []
  | (k, w) :: rest, e => if k = e then rest else (k, w) :: mapErase rest e

/-- Lookup with a default, modelling `ref_counts.entry(id).or_insert(0)` read. -/
def lookupD (l : List (Entity × Nat)) (e : Entity) (d : Nat) : Nat :=
  (mapLookup l e).getD d

-- ---------------------------------------------------------------------------
-- ref_delete.rs: messages, server state, drain and free-mark systems
-- ---------------------------------------------------------------------------

/-- `enum RefChange { Increment(Entity), Decrement(Entity) }`. -/
inductive RefChange where
  | increment (e : Entity)
  | decrement (e : Entity)
deriving DecidableEq

/-- The mutable state of `RefEntityServer`: the authoritative count table
`ref_counts` and the pending-free list `mark_unused_assets`. -/
structure RefServerState where
  ref_counts : List (Entity × Nat)
  mark_unused_assets : List Entity
deriving DecidableEq

/-- Body of the `match ref_change` in `mark_unused_entities`
(ref_delete.rs:70-82). `Increment`: `*ref_counts.entry(id).or_insert(0) += 1`.
`Decrement`: `or_insert(0)` then `*entry -= 1` (u64/usize wraparound when the
previous count is 0), then if the new value `<= 0` (for `usize`: `= 0`) the id
is pushed onto `mark_unused_assets` and the entry is removed. -/
def applyRefChange (s : RefServerState) : RefChange → RefServerState
  | .increment e =>
      { s with
        ref_counts := mapInsert s.ref_counts e ((lookupD s.ref_counts e 0 + 1) % U64) }
  | .decrement e =>
      if (lookupD s.ref_counts e 0 + (U64 - 1)) % U64 = 0 then
        { ref_counts := mapErase s.ref_counts e,
          mark_unused_assets := s.mark_unused_assets ++ [e] }
      else
        { s with
          ref_counts :=
            mapInsert s.ref_counts e ((lookupD s.ref_counts e 0 + (U64 - 1)) % U64) }

/-- The system `mark_unused_entities` (ref_delete.rs:60-84): loop on
`receiver.try_recv()`, applying each message; `Err(Empty)` breaks the loop,
`Err(Disconnected)` panics with "RefChange channel disconnected.". The queue
holds the pending messages oldest-first; `connected` is whether any sender is
still alive once the queue is empty. -/
def mark_unused_entities (s : RefServerState) (queue : List RefChange)
    (connected : Bool) : Except String RefServerState :=
  match queue with
  | [] =>
      if connected then Except.ok s
      else Except.error "RefChange channel disconnected."
  | c :: rest => mark_unused_entities (applyRefChange s c) rest connected

/-- Pure form of a connected drain pass: fold the loop body over the queue. -/
def markDrain (s : RefServerState) (queue : List RefChange) : RefServerState :=
  queue.foldl applyRefChange s

/-- On a connected channel, `mark_unused_entities` is exactly the fold of the
loop body over the queued messages. -/
theorem mark_unused_entities_connected (queue : List RefChange)
    (s : RefServerState) :
    mark_unused_entities s queue true = Except.ok (markDrain s queue) := by
  induction queue generalizing s with
  | nil => rfl
  | cons c rest ih =>
      simp only [mark_unused_entities, markDrain, List.foldl_cons]
      exact ih (applyRefChange s c)

/-- The system `free_unused_entities` (ref_delete.rs:46-58): drain
`mark_unused_assets`; for each candidate, insert `QueueDelete` iff the table
still holds an explicit `0` count for it (`if let Some(&0) = ref_counts.get`)
and the entity still exists (`valid_query.get(..).is_ok()`, the predicate
`alive`). Returns the new server state and the list of entities that received
`QueueDelete`. -/
def free_unused_entities (s : RefServerState) (alive : Entity → Bool) :
    RefServerState × List Entity :=
  ({ s with mark_unused_assets := [] },
   s.mark_unused_assets.filter
     (fun e => (mapLookup s.ref_counts e == some 0) && alive e))

-- ---------------------------------------------------------------------------
-- ref_delete.rs: handles
-- ---------------------------------------------------------------------------

/-- `enum RefCompHandleType { Weak, Strong(Sender<RefChange>) }`. There is one
global channel (owned by `RefEntityServer`), so the sender payload carries no
information beyond strength and is dropped from the model. -/
inductive RefCompHandleType where
  | Weak
  | Strong
deriving DecidableEq

/-- `struct RefEntityHandle { entity, handle_type }`. -/
structure RefEntityHandle where
  entity : Entity
  handle_type : RefCompHandleType
deriving DecidableEq

/-- Result of `crossbeam_channel::Sender::send`. -/
inductive SendResult where
  | sent
  | send_error
deriving DecidableEq

/-- A send on the channel: delivered when connected, a `SendError` (message
lost) when all receivers are gone. Second component: messages that reach the
queue. -/
def channelSend (connected : Bool) (c : RefChange) : SendResult × List RefChange :=
  if connected then (.sent, [c]) else (.send_error, [])

namespace RefEntityHandle

/-- `RefEntityHandle::strong` (ref_delete.rs:110-118): sends one `Increment`
(the code `.unwrap()`s the send; the connected case modelled here) and returns
a Strong handle. Second component: the messages sent. -/
def strong (e : Entity) : RefEntityHandle × List RefChange :=
  (⟨e, .Strong⟩, [.increment e])

/-- `RefEntityHandle::weak` (ref_delete.rs:121-126): no message. -/
def weak (e : Entity) : RefEntityHandle × List RefChange :=
  (⟨e, .Weak⟩, [])

/-- `RefEntityHandle::as_weak` (ref_delete.rs:129-134): a Weak copy, no send. -/
def as_weak (h : RefEntityHandle) : RefEntityHandle × List RefChange :=
  (⟨h.entity, .Weak⟩, [])

/-- `RefEntityHandle::is_weak`. -/
def is_weak (h : RefEntityHandle) : Bool :=
  match h.handle_type with
  | .Weak => true
  | .Strong => false

/-- `RefEntityHandle::is_strong`. -/
def is_strong (h : RefEntityHandle) : Bool :=
  match h.handle_type with
  | .Weak => false
  | .Strong => true

/-- `RefEntityHandle::make_strong` (ref_delete.rs:147-154): early-return if
already strong; otherwise send one `Increment` and become Strong. -/
def make_strong (h : RefEntityHandle) : RefEntityHandle × List RefChange :=
  if h.is_strong then (h, [])
  else (⟨h.entity, .Strong⟩, [.increment h.entity])

/-- `RefEntityHandle::clone_weak` (ref_delete.rs:157-159): `weak(entity)`. -/
def clone_weak (h : RefEntityHandle) : RefEntityHandle × List RefChange :=
  weak h.entity

/-- `impl Clone for RefEntityHandle` (ref_delete.rs:190-199): a Strong handle
clones via `strong` (one `Increment`), a Weak handle via `weak` (nothing). -/
def clone (h : RefEntityHandle) : RefEntityHandle × List RefChange :=
  match h.handle_type with
  | .Strong => strong h.entity
  | .Weak => weak h.entity

/-- `impl Drop for RefEntityHandle` (ref_delete.rs:162-173): a Strong handle
does `let _ = sender.send(Decrement(entity))`, discarding a send error — the
code comment says "ignore send errors because this means the channel is shut
down"; a Weak handle does nothing. The drop itself never panics: the result is
always `Except.ok` with the messages that reached the queue. -/
def drop_with_channel (h : RefEntityHandle) (connected : Bool) :
    Except String (List RefChange) :=
  match h.handle_type with
  | .Strong => Except.ok (channelSend connected (.decrement h.entity)).2
  | .Weak => Except.ok []

end RefEntityHandle

-- ---------------------------------------------------------------------------
-- lib.rs: frame_count_delete_system
-- ---------------------------------------------------------------------------

/-- Per-entity body of `frame_count_delete_system` (lib.rs:95-105):
`frames.0 -= 1;` on the `u64` stored in `FrameCountDelete` (wraparound in
release builds, panic in debug builds when the value is 0), then
`if frames.0 <= 0` (for an unsigned value: `= 0`) insert `QueueDelete`.
Returns the new stored value and whether the tag was inserted. -/
def frame_count_delete_step (remaining : Nat) : Nat × Bool :=
  let r := (remaining + (U64 - 1)) % U64
  (r, r == 0)

-- ---------------------------------------------------------------------------
-- recursive.rs: hierarchy cascade
-- ---------------------------------------------------------------------------

/-- A cycle-free hierarchy rooted at an entity: the entity id together with the
subtrees of its `Children` (the host guarantees a tree). An entity with no
`Children` component is `node e []`. -/
inductive ETree where
  | node (e : Entity) (children : List ETree)

mutual

/-- `queue_despawn_with_children_recursive_inner` (recursive.rs:19-27): recurse
into every child, then `world.entity_mut(entity).insert(QueueDelete)`. Returns
the entities that receive `QueueDelete`, in insertion order. -/
def queue_despawn_with_children_recursive_inner : ETree → List Entity
  | .node e cs => queue_despawn_children_loop cs ++ [e]

/-- The `for e in children` loop shared by both walkers. -/
def queue_despawn_children_loop : List ETree → List Entity
  | [] => []
  | t :: ts =>
      queue_despawn_with_children_recursive_inner t ++ queue_despawn_children_loop ts

end

/-- `queue_despawn_with_children_recursive` (recursive.rs:15-17): delegates to
the inner walker. -/
def queue_despawn_with_children_recursive (t : ETree) : List Entity :=
  queue_despawn_with_children_recursive_inner t

/-- `queue_despawn_children` (recursive.rs:29-37): recurse into every child via
the inner walker, then — as written at recursive.rs:36 — insert `QueueDelete`
into the given entity itself as well. -/
def queue_despawn_children : ETree → List Entity
  | .node e cs => queue_despawn_children_loop cs ++ [e]

-- ---------------------------------------------------------------------------
-- lib.rs / ref_delete.rs: the systems the plugins register, and their stages
-- ---------------------------------------------------------------------------

/-- The bevy 0.7 `CoreStage`s, in the order the scheduler runs them. -/
inductive CoreStage where
  | first
  | preUpdate
  | update
  | postUpdate
  | last
deriving DecidableEq

/-- Position of a stage in the per-tick run order. -/
def CoreStage.idx : CoreStage → Nat
  | .first => 0
  | .preUpdate => 1
  | .update => 2
  | .postUpdate => 3
  | .last => 4

/-- The systems registered by `BevyQueueDeletePlugin::build` (lib.rs:21-35) and
`RefEntityPlugin::build` (ref_delete.rs:16-22). -/
inductive SystemId where
  | queue_delete_system
  | timer_delete_system
  | timer_start_fn
  | frame_count_delete_system
  | free_unused_entities
  | mark_unused_entities
deriving DecidableEq, BEq

/-- The stage each system is added to: `queue_delete_system` via
`add_system_to_stage(CoreStage::Last, ..)`, every other system via
`add_system(..)`, which in bevy 0.7 adds to `CoreStage::Update`. -/
def pluginSystems : List (SystemId × CoreStage) :=
  [ (.queue_delete_system, .last),
    (.timer_delete_system, .update),
    (.timer_start_fn, .update),
    (.frame_count_delete_system, .update),
    (.free_unused_entities, .update),
    (.mark_unused_entities, .update) ]

/-- Explicit `before`/`after` edges registered by the plugins: none. The only
descriptor used is `.label(QueueDelete)` on `queue_delete_system`, which names
the system but orders nothing. -/
def orderingConstraints : List (SystemId × SystemId) := []

/-- Stage a plugin system is registered in. -/
def systemStage (x : SystemId) : Option CoreStage :=
  (pluginSystems.find? (fun p => p.1 == x)).map (fun p => p.2)

/-- `runsBefore a b`: bevy 0.7 guarantees `a` runs before `b` in every tick.
Within a stage systems run in unspecified (parallel) order unless an explicit
edge orders them; distinct stages run in `CoreStage.idx` order. -/
def runsBefore (a b : SystemId) : Bool :=
  match systemStage a, systemStage b with
  | some sa, some sb =>
      decide (sa.idx < sb.idx) || orderingConstraints.contains (a, b)
  | _, _ => false

-- ---------------------------------------------------------------------------
-- lib.rs: TimerDelete and its systems (bevy 0.7 Timer semantics)
-- ---------------------------------------------------------------------------

/-- bevy_core 0.7 `Stopwatch`: accumulated time (here in nanoseconds as an
unbounded `Nat`; `Duration` addition only panics at astronomically large
values) and a paused flag. -/
structure Stopwatch where
  elapsed : Nat
  paused : Bool
deriving DecidableEq

/-- `Stopwatch::tick`: accumulate `delta` unless paused. -/
def Stopwatch.tick (s : Stopwatch) (delta : Nat) : Stopwatch :=
  if s.paused then s else { s with elapsed := s.elapsed + delta }

/-- bevy_core 0.7 `Timer`. -/
structure Timer where
  stopwatch : Stopwatch
  duration : Nat
  repeating : Bool
  finished : Bool
  times_finished : Nat
deriving DecidableEq

/-- `Timer::default()`: zero duration, non-repeating, not finished. -/
def Timer.default : Timer :=
  ⟨⟨0, false⟩, 0, false, false, 0⟩

def Timer.elapsed (t : Timer) : Nat := t.stopwatch.elapsed

def Timer.paused (t : Timer) : Bool := t.stopwatch.paused

/-- `Timer::just_finished()`: `times_finished > 0`. -/
def Timer.just_finished (t : Timer) : Bool := t.times_finished > 0

/-- `Timer::set_duration`. -/
def Timer.set_duration (t : Timer) (d : Nat) : Timer := { t with duration := d }

/-- bevy_core 0.7 `Timer::tick`: no-op when paused; a finished non-repeating
timer only resets `times_finished` to 0; otherwise advance the stopwatch,
recompute `finished := elapsed >= duration`, and on finishing a non-repeating
timer clamp `elapsed` to `duration` and set `times_finished := 1` (a repeating
timer divides; unused by this crate, whose timers are all non-repeating). -/
def Timer.tick (t : Timer) (delta : Nat) : Timer :=
  if t.paused then t
  else if !t.repeating && t.finished then { t with times_finished := 0 }
  else
    let t1 := { t with stopwatch := t.stopwatch.tick delta }
    let t2 := { t1 with finished := decide (t1.duration ≤ t1.elapsed) }
    if t2.finished then
      if t2.repeating then
        let tf := t2.elapsed / t2.duration
        { t2 with
          times_finished := tf,
          stopwatch := { t2.stopwatch with elapsed := t2.elapsed - t2.duration * tf } }
      else
        { t2 with
          times_finished := 1,
          stopwatch := { t2.stopwatch with elapsed := t2.duration } }
    else { t2 with times_finished := 0 }

/-- `struct TimerDelete { duration, timer }` (lib.rs:54-59). -/
structure TimerDelete where
  duration : Nat
  timer : Timer
deriving DecidableEq

/-- `TimerDelete::new` (lib.rs:61-68): stores the duration, `Timer::default()`. -/
def TimerDelete.new (d : Nat) : TimerDelete :=
  ⟨d, Timer.default⟩

/-- Per-entity body of `timer_start_fn` (lib.rs:83-88), run on
`Added<TimerDelete>`: copies `duration` into the inner timer. -/
def timer_start_fn_step (td : TimerDelete) : TimerDelete :=
  { td with timer := td.timer.set_duration td.duration }

/-- Per-entity body of `timer_delete_system` (lib.rs:70-81): tick the timer by
the frame delta; insert `QueueDelete` iff `just_finished()`. -/
def timer_delete_step (td : TimerDelete) (delta : Nat) : TimerDelete × Bool :=
  let t := td.timer.tick delta
  ({ td with timer := t }, t.just_finished)

/-- Run `timer_delete_system` on one entity over a sequence of frame deltas;
result: for each tick, whether `QueueDelete` was inserted that tick. -/
def timer_delete_run (td : TimerDelete) : List Nat → List Bool
  | [] => []
  | d :: ds =>
      (timer_delete_step td d).2 :: timer_delete_run (timer_delete_step td d).1 ds

-- ---------------------------------------------------------------------------
-- Spec-side drain step (for the refinement comparison of claim C4)
-- ---------------------------------------------------------------------------

/-- The drain step exactly as the spec words it (spec 4.5, claim C4): for
`Increment(id)`, `count[id] += 1` (insert with 1 if absent); for
`Decrement(id)`, `count[id] -= 1` over the integers and, if the result is
`<= 0` (i.e. the previous count was `<= 1`), remove the entry and add `id` to
the Pending-Free Set. Stated over the same state representation as the code. -/
def specApplyRefChange (s : RefServerState) : RefChange → RefServerState
  | .increment e =>
      { s with ref_counts := mapInsert s.ref_counts e (lookupD s.ref_counts e 0 + 1) }
  | .decrement e =>
      if lookupD s.ref_counts e 0 ≤ 1 then
        { ref_counts := mapErase s.ref_counts e,
          mark_unused_assets := s.mark_unused_assets ++ [e] }
      else
        { s with ref_counts := mapInsert s.ref_counts e (lookupD s.ref_counts e 0 - 1) }

-- ---------------------------------------------------------------------------
-- Helper lemmas about the association-list map
-- ---------------------------------------------------------------------------

theorem mapLookup_mem {l : List (Entity × Nat)} {e : Entity} {v : Nat}
    (h : mapLookup l e = some v) : (e, v) ∈ l := by
  induction l with
  | nil => simp [mapLookup] at h
  | cons q rest ih =>
      obtain ⟨k, w⟩ := q
      simp only [mapLookup] at h
      by_cases hk : k = e
      · rw [if_pos hk] at h
        injection h with h
        subst hk
        subst h
        exact List.mem_cons_self _ _
      · rw [if_neg hk] at h
        exact List.mem_cons_of_mem _ (ih h)

theorem mem_mapInsert {l : List (Entity × Nat)} {e : Entity} {v : Nat}
    {p : Entity × Nat} (h : p ∈ mapInsert l e v) : p = (e, v) ∨ p ∈ l := by
  induction l with
  | nil =>
      simp only [mapInsert, List.mem_singleton] at h
      exact Or.inl h
  | cons q rest ih =>
      obtain ⟨k, w⟩ := q
      simp only [mapInsert] at h
      by_cases hk : k = e
      · rw [if_pos hk] at h
        rcases List.mem_cons.mp h with h1 | h1
        · subst hk
          exact Or.inl h1
        · exact Or.inr (List.mem_cons_of_mem _ h1)
      · rw [if_neg hk] at h
        rcases List.mem_cons.mp h with h1 | h1
        · exact Or.inr (h1 ▸ List.mem_cons_self _ _)
        · rcases ih h1 with h2 | h2
          · exact Or.inl h2
          · exact Or.inr (List.mem_cons_of_mem _ h2)

theorem mem_mapErase {l : List (Entity × Nat)} {e : Entity} {p : Entity × Nat}
    (h : p ∈ mapErase l e) : p ∈ l := by
  induction l with
  | nil => simp [mapErase] at h
  | cons q rest ih =>
      obtain ⟨k, w⟩ := q
      simp only [mapErase] at h
      by_cases hk : k = e
      · rw [if_pos hk] at h
        exact List.mem_cons_of_mem _ h
      · rw [if_neg hk] at h
        rcases List.mem_cons.mp h with h1 | h1
        · exact h1 ▸ List.mem_cons_self _ _
        · exact List.mem_cons_of_mem _ (ih h1)

-- ---------------------------------------------------------------------------
-- Wellformedness of the reference-count table (claim C10)
-- ---------------------------------------------------------------------------

/-- Every entry of the reference-count table holds a representable, nonzero
count. -/
def tableWF (s : RefServerState) : Prop :=
  ∀ p ∈ s.ref_counts, 1 ≤ p.2 ∧ p.2 < U64

/-- The message at the head does not land an `Increment` on a count of
`2^64 - 1` (the only way a drain step can overflow `usize`). -/
def incOverflowFree (s : RefServerState) : RefChange → Bool
  | .increment e => lookupD s.ref_counts e 0 != U64 - 1
  | .decrement _ => true

/-- No `Increment` of the given drain pass lands on a count of `2^64 - 1`,
i.e. no increment overflows `usize` during the pass. -/
def noIncOverflowB (s : RefServerState) (q : List RefChange) : Bool :=
  match q with
  | [] => true
  | c :: rest => incOverflowFree s c && noIncOverflowB (applyRefChange s c) rest

theorem markDrain_cons (s : RefServerState) (c : RefChange)
    (rest : List RefChange) :
    markDrain s (c :: rest) = markDrain (applyRefChange s c) rest := rfl

theorem noIncOverflowB_cons (s : RefServerState) (c : RefChange)
    (rest : List RefChange) :
    noIncOverflowB s (c :: rest)
      = (incOverflowFree s c && noIncOverflowB (applyRefChange s c) rest) := rfl

theorem incOverflowFree_increment (s : RefServerState) (e : Entity) :
    incOverflowFree s (.increment e) = (lookupD s.ref_counts e 0 != U64 - 1) := rfl

theorem lookupD_lt_of_tableWF {s : RefServerState} (hwf : tableWF s) (e : Entity) :
    lookupD s.ref_counts e 0 < U64 := by
  rcases hml : mapLookup s.ref_counts e with _ | v
  · simp only [lookupD, hml, Option.getD_none]
    decide
  · have h := (hwf (e, v) (mapLookup_mem hml)).2
    simpa only [lookupD, hml, Option.getD_some] using h

theorem tableWF_increment {s : RefServerState} {e : Entity} (hwf : tableWF s)
    (hov : lookupD s.ref_counts e 0 ≠ U64 - 1) :
    tableWF (applyRefChange s (.increment e)) := by
  have hlt := lookupD_lt_of_tableWF hwf e
  intro p hp
  simp only [applyRefChange] at hp
  rcases mem_mapInsert hp with h1 | h1
  · have hmod : (lookupD s.ref_counts e 0 + 1) % U64 = lookupD s.ref_counts e 0 + 1 := by
      apply Nat.mod_eq_of_lt
      simp only [U64] at hlt hov ⊢
      omega
    rw [h1, hmod]
    simp only [U64] at hlt hov ⊢
    omega
  · exact hwf p h1

theorem tableWF_decrement {s : RefServerState} {e : Entity} (hwf : tableWF s) :
    tableWF (applyRefChange s (.decrement e)) := by
  intro p hp
  simp only [applyRefChange] at hp
  by_cases h0 : (lookupD s.ref_counts e 0 + (U64 - 1)) % U64 = 0
  · rw [if_pos h0] at hp
    exact hwf p (mem_mapErase hp)
  · rw [if_neg h0] at hp
    rcases mem_mapInsert hp with h1 | h1
    · have hlt : (lookupD s.ref_counts e 0 + (U64 - 1)) % U64 < U64 :=
        Nat.mod_lt _ (by decide)
      rw [h1]
      exact ⟨Nat.one_le_iff_ne_zero.mpr h0, hlt⟩
    · exact hwf p h1

-- ---------------------------------------------------------------------------
-- Claim theorems C1, C2, C3, C4, C5, C7, C8, C9, C10
-- ---------------------------------------------------------------------------

/-- Claim C1: the spec says that after N strong handles for an object are
created and all N released before the drain phase, the tick leaves the object
carrying the Deletion Tag. The code evaluated at the spec's own scenario
(2 creations, 2 releases, drained, then the free-mark pass with the entity
alive): the drain leaves entity 0 on the pending-free list but removes its
table entry, so the free-mark pass, which requires an explicit `Some(&0)`
entry, tags nothing — no `QueueDelete` is ever inserted. -/
theorem refcount_two_handles_not_tagged :
    mark_unused_entities ⟨[], []⟩
      [RefChange.increment 0, RefChange.increment 0,
       RefChange.decrement 0, RefChange.decrement 0] true
      = Except.ok ⟨[], [0]⟩
  ∧ free_unused_entities ⟨[], [0]⟩ (fun _ => true) = (⟨[], []⟩, []) :=
  ⟨rfl, rfl⟩

/-- Claim C2: the spec says the descendants-only cascade never tags the root,
but `queue_despawn_children` (recursive.rs:36) inserts `QueueDelete` into the
given entity itself, making it identical to the include-root walk: on a
childless root 0 it tags exactly `[0]`, and on every tree it agrees with
`queue_despawn_with_children_recursive`. -/
theorem queue_despawn_children_tags_root :
    queue_despawn_children (ETree.node 0 []) = [0]
  ∧ ∀ t : ETree, queue_despawn_children t = queue_despawn_with_children_recursive t := by
  refine ⟨rfl, ?_⟩
  intro t
  cases t
  rfl

/-- Claim C3 (counterexample): both `mark_unused_entities` and
`free_unused_entities` are registered with plain `add_system` in
`CoreStage::Update` and no `before`/`after` edge, so the schedule does not
guarantee that the drain phase runs before the free-mark phase. -/
theorem mark_before_free_not_guaranteed :
    runsBefore SystemId.mark_unused_entities SystemId.free_unused_entities = false := by
  decide

/-- Claim C3 (amended): `queue_delete_system` is registered exactly once, in
`CoreStage::Last`, and so is guaranteed to run after every plugin system that
can attach `QueueDelete` (all registered in `CoreStage::Update`); but
`mark_unused_entities` and `free_unused_entities` are mutually unordered
within the Update stage. -/
theorem queue_delete_runs_last_once :
    (pluginSystems.filter (fun p => p.1 == SystemId.queue_delete_system)).length = 1
  ∧ runsBefore .timer_delete_system .queue_delete_system = true
  ∧ runsBefore .timer_start_fn .queue_delete_system = true
  ∧ runsBefore .frame_count_delete_system .queue_delete_system = true
  ∧ runsBefore .free_unused_entities .queue_delete_system = true
  ∧ runsBefore .mark_unused_entities .queue_delete_system = true
  ∧ runsBefore .free_unused_entities .mark_unused_entities = false := by
  decide

/-- Claim C4 (counterexample): draining a `Decrement` for an id absent from
the table does not remove the entry and enqueue the id, as the spec claims;
the `usize` subtraction wraps to `2^64 - 1`, the entry is kept at that value
and the pending-free list stays empty. -/
theorem decrement_absent_id_wraps :
    markDrain ⟨[], []⟩ [RefChange.decrement 0]
      = ⟨[(0, 18446744073709551615)], []⟩
  ∧ ¬ markDrain ⟨[], []⟩ [RefChange.decrement 0] = ⟨[], [0]⟩ := by
  decide

/-- Claim C4 (amended): a drain-phase message is processed exactly as the spec
words it whenever it cannot wrap the `usize` count: an `Increment` whose
target count has a representable successor behaves as `count += 1` (insert 1
if absent), and a `Decrement` whose target is present with count `>= 1`
behaves as `count -= 1` with removal plus pending-free enqueueing exactly when
the result is 0. -/
theorem drain_step_matches_spec (s : RefServerState) (m : RefChange)
    (hok : match m with
      | RefChange.increment e => lookupD s.ref_counts e 0 + 1 < U64
      | RefChange.decrement e =>
          1 ≤ lookupD s.ref_counts e 0 ∧ lookupD s.ref_counts e 0 < U64) :
    applyRefChange s m = specApplyRefChange s m := by
  cases m with
  | increment e =>
      simp only [applyRefChange, specApplyRefChange]
      rw [Nat.mod_eq_of_lt hok]
  | decrement e =>
      obtain ⟨h1, h2⟩ := hok
      have hc : (lookupD s.ref_counts e 0 + (U64 - 1)) % U64
          = lookupD s.ref_counts e 0 - 1 := by
        simp only [U64] at h1 h2 ⊢
        omega
      simp only [applyRefChange, specApplyRefChange, hc]
      by_cases h0 : lookupD s.ref_counts e 0 ≤ 1
      · have hz : lookupD s.ref_counts e 0 - 1 = 0 := by omega
        rw [if_pos hz, if_pos h0]
      · have hz : ¬ lookupD s.ref_counts e 0 - 1 = 0 := by omega
        rw [if_neg hz, if_neg h0]

theorem drain_step_matches_spec_witness :
    applyRefChange ⟨[(0, 2)], []⟩ (RefChange.decrement 0)
      = specApplyRefChange ⟨[(0, 2)], []⟩ (RefChange.decrement 0) :=
  drain_step_matches_spec ⟨[(0, 2)], []⟩ (RefChange.decrement 0) ⟨by decide, by decide⟩

/-- Claim C5: the spec requires the tick-count decrement to saturate at 0, but
`frame_count_delete_system` does a plain `u64` `frames.0 -= 1`: run on a
stored count of 0 it wraps to `2^64 - 1` and attaches no tag (debug builds
panic instead), while on a count of 1 it reaches 0 and attaches the tag. -/
theorem frame_count_decrement_wraps :
    frame_count_delete_step 0 = (18446744073709551615, false)
  ∧ frame_count_delete_step 1 = (0, true) := by
  decide

/-- Claim C7: weak-handle operations — creating a weak handle, `as_weak`,
`clone_weak`, `clone` of a weak handle, dropping a weak handle — send no
Ref-Change message, produce only weak handles, and hence leave the
reference-count table untouched (a drain pass over their messages is a drain
over `[]`). -/
theorem weak_ops_silent (e : Entity) (h : RefEntityHandle) (s : RefServerState)
    (hw : h.is_weak = true) :
    (RefEntityHandle.weak e).2 = []
  ∧ (RefEntityHandle.weak e).1.is_weak = true
  ∧ h.as_weak.2 = []
  ∧ h.as_weak.1.is_weak = true
  ∧ h.clone_weak.2 = []
  ∧ h.clone_weak.1.is_weak = true
  ∧ h.clone.2 = []
  ∧ h.clone.1.is_weak = true
  ∧ (∀ b, h.drop_with_channel b = Except.ok [])
  ∧ markDrain s [] = s := by
  obtain ⟨e', ht⟩ := h
  cases ht with
  | Weak =>
      exact ⟨rfl, rfl, rfl, rfl, rfl, rfl, rfl, rfl, fun _ => rfl, rfl⟩
  | Strong =>
      exact absurd hw (by simp [RefEntityHandle.is_weak])

theorem weak_ops_silent_witness :
    (RefEntityHandle.mk 0 RefCompHandleType.Weak).clone.2 = []
  ∧ (RefEntityHandle.mk 0 RefCompHandleType.Weak).drop_with_channel true
      = Except.ok [] := by
  have h := weak_ops_silent 0 ⟨0, RefCompHandleType.Weak⟩ ⟨[], []⟩ rfl
  exact ⟨h.2.2.2.2.2.2.1, h.2.2.2.2.2.2.2.2.1 true⟩

/-- Claim C8: `make_strong` on a weak handle sends exactly one `Increment` and
makes the handle strong; on an already-strong handle it sends nothing and
changes nothing; hence a second call after the first is always a no-op. -/
theorem make_strong_single_increment (h : RefEntityHandle) :
    (h.is_weak = true →
      h.make_strong = (⟨h.entity, RefCompHandleType.Strong⟩, [RefChange.increment h.entity]))
  ∧ (h.is_strong = true → h.make_strong = (h, []))
  ∧ h.make_strong.1.make_strong = (h.make_strong.1, []) := by
  obtain ⟨e, ht⟩ := h
  cases ht with
  | Weak => exact ⟨fun _ => rfl, fun hs => Bool.noConfusion hs, rfl⟩
  | Strong => exact ⟨fun hw => Bool.noConfusion hw, fun _ => rfl, rfl⟩

theorem make_strong_single_increment_witness :
    (RefEntityHandle.mk 0 RefCompHandleType.Weak).make_strong
      = (⟨0, RefCompHandleType.Strong⟩, [RefChange.increment 0]) :=
  (make_strong_single_increment ⟨0, RefCompHandleType.Weak⟩).1 rfl

/-- Claim C9 (counterexample): destroying a strong handle after the tracker
(and with it the receiver) is gone does not abort or surface any fault — the
`Drop` impl discards the send error and completes normally, delivering
nothing. -/
theorem strong_drop_after_teardown_no_fault :
    RefEntityHandle.drop_with_channel ⟨0, RefCompHandleType.Strong⟩ false
      = Except.ok [] :=
  rfl

/-- Claim C9 (amended): the two directions differ. The drain phase does treat
disconnection as fatal — `mark_unused_entities` on a disconnected channel
always ends in the panic "RefChange channel disconnected." — but a strong
handle dropped after teardown silently ignores the send error and never
faults, whatever the channel state. -/
theorem drain_panics_drop_silent (s : RefServerState) (q : List RefChange)
    (e : Entity) (b : Bool) :
    mark_unused_entities s q false = Except.error "RefChange channel disconnected."
  ∧ ∃ msgs, RefEntityHandle.drop_with_channel ⟨e, RefCompHandleType.Strong⟩ b
      = Except.ok msgs := by
  constructor
  · induction q generalizing s with
    | nil => rfl
    | cons c rest ih => exact ih (applyRefChange s c)
  · cases b with
    | false => exact ⟨[], rfl⟩
    | true => exact ⟨[RefChange.decrement e], rfl⟩

/-- Claim C10 (counterexample): a drain pass can leave an entry whose value is
0 in the table — draining `[Decrement e, Increment e]` from the empty table
wraps the count to `2^64 - 1` and then overflows it back to 0, which the
increment inserts and nothing removes. -/
theorem table_retains_zero_entry :
    markDrain ⟨[], []⟩ [RefChange.decrement 0, RefChange.increment 0]
      = ⟨[(0, 0)], []⟩
  ∧ ¬ ∀ p ∈ (markDrain ⟨[], []⟩
        [RefChange.decrement 0, RefChange.increment 0]).ref_counts, 1 ≤ p.2 := by
  decide

/-- Claim C10 (amended): a drain pass preserves "every table entry holds a
nonzero, representable count" provided no `Increment` of the pass lands on a
count of `2^64 - 1` (the only step that can write a 0: a decrement either
removes the entry at 0 or keeps it nonzero). -/
theorem drain_preserves_wellformed (s : RefServerState) (q : List RefChange)
    (hwf : tableWF s) (hov : noIncOverflowB s q = true) :
    tableWF (markDrain s q) := by
  induction q generalizing s with
  | nil => exact hwf
  | cons c rest ih =>
      rw [markDrain_cons]
      rw [noIncOverflowB_cons, Bool.and_eq_true] at hov
      have hstep : tableWF (applyRefChange s c) := by
        cases c with
        | increment e =>
            apply tableWF_increment hwf
            have h := hov.1
            rw [incOverflowFree_increment, bne_iff_ne] at h
            exact h
        | decrement e => exact tableWF_decrement hwf
      exact ih (applyRefChange s c) hstep hov.2

theorem drain_preserves_wellformed_witness :
    tableWF (markDrain ⟨[], []⟩
      [RefChange.increment 0, RefChange.increment 0, RefChange.decrement 0]) :=
  drain_preserves_wellformed ⟨[], []⟩
    [RefChange.increment 0, RefChange.increment 0, RefChange.decrement 0]
    (fun p hp => absurd hp (List.not_mem_nil p)) (by decide)

-- ---------------------------------------------------------------------------
-- Claim C6: the timer driver tags exactly at the first crossing
-- ---------------------------------------------------------------------------

/-- A `TimerDelete` whose timer has duration installed, elapsed `c`, and has
not yet finished — the shape of the state from attachment until the crossing
tick. -/
def timerPre (D c : Nat) : TimerDelete :=
  ⟨D, ⟨⟨c, false⟩, D, false, false, 0⟩⟩

/-- A `TimerDelete` whose timer has finished: elapsed clamped to the duration,
`times_finished` as recorded by the last tick. -/
def timerDone (D tf : Nat) : TimerDelete :=
  ⟨D, ⟨⟨D, false⟩, D, false, true, tf⟩⟩

theorem timer_start_eq_pre (D : Nat) :
    timer_start_fn_step (TimerDelete.new D) = timerPre D 0 := rfl

theorem timer_delete_run_cons (td : TimerDelete) (d : Nat) (ds : List Nat) :
    timer_delete_run td (d :: ds)
      = (timer_delete_step td d).2
          :: timer_delete_run (timer_delete_step td d).1 ds := rfl

theorem timer_delete_step_pre (D c δ : Nat) :
    timer_delete_step (timerPre D c) δ
      = if D ≤ c + δ then (timerDone D 1, true) else (timerPre D (c + δ), false) := by
  by_cases h : D ≤ c + δ
  · simp [timer_delete_step, timerPre, timerDone, Timer.tick, Stopwatch.tick,
      Timer.elapsed, Timer.paused, Timer.just_finished, h]
  · simp [timer_delete_step, timerPre, timerDone, Timer.tick, Stopwatch.tick,
      Timer.elapsed, Timer.paused, Timer.just_finished, h]

theorem timer_delete_step_done (D tf δ : Nat) :
    timer_delete_step (timerDone D tf) δ = (timerDone D 0, false) := by
  simp [timer_delete_step, timerDone, Timer.tick, Timer.paused, Timer.just_finished]

theorem replicate_false_getD (n i : Nat) :
    (List.replicate n false).getD i false = false := by
  induction n generalizing i with
  | zero => simp
  | succ n ih =>
      cases i with
      | zero => simp [List.replicate_succ]
      | succ j => simp [List.replicate_succ, ih]

theorem replicate_false_count (n : Nat) :
    (List.replicate n false).count true = 0 := by
  induction n with
  | zero => rfl
  | succ n ih => simp [List.replicate_succ, List.count_cons, ih]

theorem timer_run_done (D tf : Nat) (ds : List Nat) :
    timer_delete_run (timerDone D tf) ds = List.replicate ds.length false := by
  induction ds generalizing tf with
  | nil => rfl
  | cons d ds ih =>
      rw [timer_delete_run_cons, timer_delete_step_done]
      simp [ih, List.replicate_succ]

theorem timer_run_pre_getD (D : Nat) (ds : List Nat) :
    ∀ (c i : Nat), i < ds.length →
      ((timer_delete_run (timerPre D c) ds).getD i false = true
        ↔ D ≤ c + (ds.take (i + 1)).sum ∧ (i = 0 ∨ c + (ds.take i).sum < D)) := by
  induction ds with
  | nil =>
      intro c i hi
      simp at hi
  | cons δ ds ih =>
      intro c i hi
      rw [timer_delete_run_cons, timer_delete_step_pre]
      by_cases h : D ≤ c + δ
      · rw [if_pos h]
        cases i with
        | zero => simp [h]
        | succ j =>
            simp only [List.getD_cons_succ, timer_run_done, replicate_false_getD,
              List.take_succ_cons, List.sum_cons]
            constructor
            · intro hf
              exact Bool.noConfusion hf
            · rintro ⟨h1, h2 | h2⟩
              · exact absurd h2 (Nat.succ_ne_zero j)
              · exact absurd h2 (by omega)
      · rw [if_neg h]
        cases i with
        | zero => simp [h]
        | succ j =>
            have hj : j < ds.length := by simpa using hi
            simp only [List.getD_cons_succ]
            rw [ih (c + δ) j hj]
            cases j with
            | zero => simp; omega
            | succ k =>
                simp only [List.take_succ_cons, List.sum_cons, Nat.succ_ne_zero,
                  false_or]
                rw [show k + 1 + 1 = k + 2 from rfl]
                omega

theorem timer_run_pre_count (D : Nat) (ds : List Nat) :
    ∀ c, (timer_delete_run (timerPre D c) ds).count true ≤ 1 := by
  induction ds with
  | nil =>
      intro c
      simp [timer_delete_run]
  | cons δ ds ih =>
      intro c
      rw [timer_delete_run_cons, timer_delete_step_pre]
      by_cases h : D ≤ c + δ
      · rw [if_pos h]
        simp [timer_run_done, replicate_false_count, List.count_cons]
      · rw [if_neg h]
        simpa [List.count_cons] using ih (c + δ)

/-- Claim C6: attach a timer driver with duration `D` (duration installed by
the `Added` hook, elapsed zero) and run `timer_delete_system` over any
sequence of frame deltas: the tick at index `i` inserts `QueueDelete` iff the
cumulative elapsed time first reaches `D` at that tick (cumulative sum over
`i + 1` deltas at least `D`, and either it is the very first tick or the sum
over `i` deltas was still below `D`); and over the whole run the tag is
inserted at most once — later ticks are no-ops. -/
theorem timer_tags_at_first_crossing (D : Nat) (deltas : List Nat) :
    (∀ i, i < deltas.length →
      ((timer_delete_run (timer_start_fn_step (TimerDelete.new D)) deltas).getD i false
          = true
        ↔ D ≤ (deltas.take (i + 1)).sum ∧ (i = 0 ∨ (deltas.take i).sum < D)))
  ∧ (timer_delete_run (timer_start_fn_step (TimerDelete.new D)) deltas).count true ≤ 1 := by
  rw [timer_start_eq_pre]
  constructor
  · intro i hi
    have h := timer_run_pre_getD D deltas 0 i hi
    simpa using h
  · exact timer_run_pre_count D deltas 0

theorem timer_tags_at_first_crossing_witness :
    (timer_delete_run (timer_start_fn_step (TimerDelete.new 3)) [2, 2, 2]).getD 1 false
      = true :=
  ((timer_tags_at_first_crossing 3 [2, 2, 2]).1 1 (by decide)).mpr (by decide)
